import Mathlib

/-!
Shallow embedding of the Cyberchess Arena source (cyberchess.py).

The source file interleaves two copies of each routine (a commented copy and
a plain copy); the definitions below follow the de-duplicated logical code,
which is the version the line references of the specification point at.

External collaborators (the python-chess board, the Stockfish process, the
Gemini inference call, the PGN renderer, the file system) are modelled at the
interface the code uses: the board by its legal-move list and FEN string, the
move-proposal source by a round-indexed oracle returning either a text or a
raised fault, the random draw of random.choice by an index into the list, the
engine by an oracle that may fault, and the dataset file by its content string.
-/

namespace Cyberchess

/-! ## Python string operations used by the code -/

/-- The backtick character stripped by the markdown cleanup. -/
def backtickChar : Char := Char.ofNat 96

/-- ASCII whitespace as recognised by the Python str.strip() default. -/
def isPyWhitespace (c : Char) : Bool :=
  c = ' ' || c = '\t' || c = '\n' || c = '\r' || c = Char.ofNat 11 || c = Char.ofNat 12

/-- Python str.strip(): drop leading and trailing whitespace. -/
def pystripList (l : List Char) : List Char :=
  ((l.dropWhile isPyWhitespace).reverse.dropWhile isPyWhitespace).reverse

/-- Python str.replace(c, "") for a single-character pattern: every
occurrence of the character is removed. -/
def removeChar (c : Char) (l : List Char) : List Char :=
  l.filter (fun a => a ≠ c)

/-- The cleanup applied to the raw Gemini response text:
response.text.strip().replace("\n", "").replace(" ", "").replace("`", ""). -/
def sanitize (s : String) : String :=
  String.mk (removeChar backtickChar (removeChar ' ' (removeChar '\n' (pystripList s.data))))

/-- The sanitization as the specification words it: surrounding whitespace
stripped, then every internal newline, space and backtick character removed,
nothing else altered. -/
def sanitizeSpec (s : String) : String :=
  String.mk ((pystripList s.data).filter (fun c => !(c = '\n' || c = ' ' || c = backtickChar)))

/-! ## chess.Move and Move.from_uci / Move.uci -/

/-- chess.Move: origin square, target square, optional promotion piece index,
optional drop piece index (squares are indices into SQUARE_NAMES, pieces are
indices into PIECE_SYMBOLS). -/
structure ChessMove where
  fromSquare : Nat
  toSquare : Nat
  promotion : Option Nat
  dropPiece : Option Nat
deriving DecidableEq, Repr

/-- SQUARE_NAMES.index applied to a two-character square name: file letter a-h
and rank digit 1-8, row-major from rank 1. -/
def parseSquare (f r : Char) : Option Nat :=
  if 'a' ≤ f && f ≤ 'h' && '1' ≤ r && r ≤ '8' then
    some ((r.toNat - '1'.toNat) * 8 + (f.toNat - 'a'.toNat))
  else none

/-- PIECE_SYMBOLS.index applied to a piece letter. -/
def pieceSymbolIndex (c : Char) : Option Nat :=
  if c = 'p' then some 1 else if c = 'n' then some 2 else if c = 'b' then some 3
  else if c = 'r' then some 4 else if c = 'q' then some 5 else if c = 'k' then some 6
  else none

/-- chess.Move.from_uci: "0000" is the null move; a four-character string with
an at-sign in second position is a drop; otherwise four or five characters
parse as origin square, target square and optional promotion letter, with
distinct origin and target; anything else raises, modelled as none. -/
def ChessMove.fromUci (s : String) : Option ChessMove :=
  if s = "0000" then some ⟨0, 0, none, none⟩
  else
    match s.data with
    | [p, '@', f, r] =>
      match pieceSymbolIndex p.toLower, parseSquare f r with
      | some dp, some sq => some ⟨sq, sq, none, some dp⟩
      | _, _ => none
    | [f1, r1, f2, r2] =>
      match parseSquare f1 r1, parseSquare f2 r2 with
      | some a, some b => if a = b then none else some ⟨a, b, none, none⟩
      | _, _ => none
    | [f1, r1, f2, r2, pc] =>
      match parseSquare f1 r1, parseSquare f2 r2, pieceSymbolIndex pc with
      | some a, some b, some pr => if a = b then none else some ⟨a, b, some pr, none⟩
      | _, _, _ => none
    | _ => none

/-- SQUARE_NAMES at an index. -/
def squareName (n : Nat) : String :=
  String.mk [Char.ofNat ('a'.toNat + n % 8), Char.ofNat ('1'.toNat + n / 8)]

/-- piece_symbol at an index. -/
def pieceSymbolChar (n : Nat) : Char :=
  if n = 1 then 'p' else if n = 2 then 'n' else if n = 3 then 'b'
  else if n = 4 then 'r' else if n = 5 then 'q' else if n = 6 then 'k'
  else '?'

/-- chess.Move.uci: drop form, promotion form, plain square pair, or "0000"
for the null move. -/
def ChessMove.uci (m : ChessMove) : String :=
  match m.dropPiece with
  | some d => String.mk [(pieceSymbolChar d).toUpper, '@'] ++ squareName m.toSquare
  | none =>
    match m.promotion with
    | some p => squareName m.fromSquare ++ squareName m.toSquare ++ String.mk [pieceSymbolChar p]
    | none =>
      if m.fromSquare = 0 && m.toSquare = 0 then "0000"
      else squareName m.fromSquare ++ squareName m.toSquare

/-! ## The board as get_gemini_move consumes it -/

/-- The board interface used by get_gemini_move: the legal-move list (the
iteration order of board.legal_moves, also the order random.choice draws
from) and the FEN string shown in the prompt. -/
structure ChessBoard where
  legalMoves : List ChessMove
  fen : String

/-- The initial prompt built from the FEN and the comma-joined legal-move
list in UCI form. -/
def initialPrompt (board : ChessBoard) : String :=
  "\n    You are playing a game of Chess against Stockfish. You are playing Black.\n    \n    Current Board Position (FEN): "
  ++ board.fen
  ++ "\n    \n    Here is the list of legally possible moves you can make:\n    "
  ++ String.intercalate ", " (board.legalMoves.map ChessMove.uci)
  ++ "\n    \n    Your goal is to survive and learn. Analyze the board.\n    Pick the best move from the legal list above.\n    \n    IMPORTANT: Reply ONLY with the move in UCI format (e.g., e7e5). Do not write any other text.\n    "

/-! ## One proposal round -/

/-- The feedback line appended to the prompt after a failed round: the
illegal-move form names the rejected sanitized token, the format form is
fixed text. -/
inductive Feedback where
  | illegalMove (tok : String)
  | invalidFormat
deriving DecidableEq, Repr

/-- The exact text of a feedback line. -/
def feedbackText : Feedback → String
  | .illegalMove tok =>
    "\n\nERROR: " ++ tok ++ " is not a legal move. Please choose strictly from the provided list."
  | .invalidFormat =>
    "\n\nERROR: Invalid format. Please reply ONLY with the move string (e.g., e7e5)."

/-- Concatenation of the feedback lines in order. -/
def concatTexts : List Feedback → String
  | [] => ""
  | f :: fs => feedbackText f ++ concatTexts fs

/-- Outcome of one round of the retry loop. -/
inductive RoundOutcome where
  | legal (m : ChessMove)
  | illegal (tok : String)
  | formatErr
deriving DecidableEq, Repr

/-- Whether a round produced a legal move. -/
def RoundOutcome.isLegal : RoundOutcome → Bool
  | .legal _ => true
  | _ => false

/-- The body of one round: a raised fault (none) or a failed parse of the
sanitized text lands in the except branch; a parsed move is checked for
membership in board.legal_moves. -/
def roundOutcome (board : ChessBoard) (resp : Option String) : RoundOutcome :=
  match resp with
  | none => .formatErr
  | some raw =>
    let tok := sanitize raw
    match ChessMove.fromUci tok with
    | none => .formatErr
    | some m => if m ∈ board.legalMoves then .legal m else .illegal tok

/-- The feedback a round outcome produces (none for a success). -/
def outcomeFeedback : RoundOutcome → Option Feedback
  | .legal _ => none
  | .illegal tok => some (.illegalMove tok)
  | .formatErr => some .invalidFormat

/-! ## The retry loop and get_gemini_move -/

/-- Observable state of the retry loop: the move returned early (if any), the
number of proposal rounds performed, the prompt at exit, and the feedback
lines appended during these rounds in order. -/
structure LoopState where
  found : Option ChessMove
  rounds : Nat
  prompt : String
  newFeedback : List Feedback
deriving Repr

/-- The for-attempt-in-range(retries) loop: each round queries the oracle at
the current attempt index, returns immediately on a legal move, and otherwise
appends the feedback line matching the failure mode to the prompt. -/
def negotiateLoop (board : ChessBoard) (oracle : Nat → Option String) :
    Nat → Nat → String → LoopState
  | 0, _, prompt => { found := none, rounds := 0, prompt := prompt, newFeedback := [] }
  | rem + 1, attempt, prompt =>
    match roundOutcome board (oracle attempt) with
    | .legal m => { found := some m, rounds := 1, prompt := prompt, newFeedback := [] }
    | .illegal tok =>
      let st := negotiateLoop board oracle rem (attempt + 1)
        (prompt ++ feedbackText (.illegalMove tok))
      { found := st.found, rounds := st.rounds + 1, prompt := st.prompt,
        newFeedback := Feedback.illegalMove tok :: st.newFeedback }
    | .formatErr =>
      let st := negotiateLoop board oracle rem (attempt + 1)
        (prompt ++ feedbackText .invalidFormat)
      { found := st.found, rounds := st.rounds + 1, prompt := st.prompt,
        newFeedback := Feedback.invalidFormat :: st.newFeedback }

/-- Observable result of one get_gemini_move call. -/
structure GeminiTrace where
  move : Option ChessMove
  rounds : Nat
  feedback : List Feedback
  prompt : String
  usedFallback : Bool
deriving Repr

/-- get_gemini_move(board, retries): run the retry loop from the initial
prompt; if no round returned a legal move, fall back to
random.choice(list(board.legal_moves)), modelled by the drawn index randIdx
into the legal-move list (none models the raise on an empty list). -/
def get_gemini_move (board : ChessBoard) (oracle : Nat → Option String)
    (randIdx : Nat) (retries : Nat) : GeminiTrace :=
  let st := negotiateLoop board oracle retries 0 (initialPrompt board)
  match st.found with
  | some m =>
    { move := some m, rounds := st.rounds, feedback := st.newFeedback,
      prompt := st.prompt, usedFallback := false }
  | none =>
    { move := board.legalMoves.get? randIdx, rounds := st.rounds,
      feedback := st.newFeedback, prompt := st.prompt, usedFallback := true }

/-! ## The game loop (play_game) -/

/-- The board-state-provider interface play_game consumes: the starting
position, legal-move enumeration, move application (board.push), terminality
(board.is_game_over) and the side to move (board.turn == chess.WHITE). -/
structure BoardAPI (B M : Type) where
  init : B
  legalMoves : B → List M
  push : B → M → B
  isGameOver : B → Bool
  turnWhite : B → Bool

/-- Result of running the game loop: normal exit with the final board and the
accumulated game_moves list, a fault raised by an engine.play call that
propagates out of the loop, or fuel exhaustion (the loop still running). -/
inductive GameRes (B M : Type) where
  | finished (b : B) (moves : List M)
  | engineFault
  | fuelOut
deriving DecidableEq, Repr

/-- The while-not-board.is_game_over loop: on the White turn the engine is
queried (none models a raised engine fault, which propagates), on the Black
turn the Gemini source is queried (total by the negotiator contract); the
returned move is pushed and appended to game_moves. -/
def playLoop (api : BoardAPI B M) (engine : B → Option M) (gem : B → M) :
    Nat → B → List M → GameRes B M
  | 0, _, _ => .fuelOut
  | fuel + 1, b, ms =>
    if api.isGameOver b then .finished b ms
    else if api.turnWhite b then
      match engine b with
      | none => .engineFault
      | some m => playLoop api engine gem fuel (api.push b m) (ms ++ [m])
    else playLoop api engine gem fuel (api.push b (gem b)) (ms ++ [gem b])

/-- Observable outcome of play_game: the loop result together with whether
the engine.quit() line was reached. -/
structure PlayOutcome (B M : Type) where
  result : GameRes B M
  engineQuitCalled : Bool
deriving Repr

/-- play_game: start the engine, run the loop from the starting position with
an empty game_moves list, and call engine.quit() afterwards. The source has
no try/finally around the loop, so the quit line runs exactly on the normal
exit path: a fault from inside the loop propagates before engine.quit(). -/
def play_game (api : BoardAPI B M) (engine : B → Option M) (gem : B → M)
    (fuel : Nat) : PlayOutcome B M :=
  let r := playLoop api engine gem fuel api.init []
  { result := r,
    engineQuitCalled := match r with | .finished _ _ => true | _ => false }

/-- Every move of the list is legal at the position it is played from,
starting at board b. -/
def legalPathB (api : BoardAPI B M) [DecidableEq M] : B → List M → Bool
  | _, [] => true
  | b, m :: ms => decide (m ∈ api.legalMoves b) && legalPathB api (api.push b m) ms

/-! ## save_game_data -/

/-- A chess.pgn.Game as the code manipulates it: the header mapping and the
serialized movetext (left abstract, produced by the external renderer). -/
structure PGNGame where
  headers : List (String × String)
  movesText : List String
deriving Repr

/-- The default seven-tag roster of a fresh chess.pgn.Game. -/
def defaultHeaders : List (String × String) :=
  [("Event", "?"), ("Site", "?"), ("Date", "????.??.??"), ("Round", "?"),
   ("White", "?"), ("Black", "?"), ("Result", "*")]

/-- headers[key] = value on the dict-like header mapping: replace the value
under an existing key, else append the pair. -/
def setHeader (hs : List (String × String)) (k v : String) : List (String × String) :=
  if hs.any (fun p => p.1 = k) then hs.map (fun p => if p.1 = k then (k, v) else p)
  else hs ++ [(k, v)]

/-- chess.pgn.Game.from_board: fresh default headers with Result set from the
board, and the movetext taken from the move stack of the board. -/
def gameFromBoard (boardResult : String) (boardMoves : List String) : PGNGame :=
  { headers := setHeader defaultHeaders "Result" boardResult, movesText := boardMoves }

/-- Decimal digit character. -/
def digitChar (n : Nat) : Char := Char.ofNat (48 + n)

/-- Decimal rendering of a natural number, most significant digit first. -/
def natDigits (n : Nat) : List Char :=
  if _h : n < 10 then [digitChar n]
  else natDigits (n / 10) ++ [digitChar (n % 10)]
decreasing_by exact Nat.div_lt_self (by omega) (by omega)

/-- Two-digit zero-padded field, as strftime renders the month and day. -/
def pad2 (n : Nat) : List Char :=
  if n < 10 then ['0', digitChar n] else natDigits n

/-- A calendar date as datetime.datetime.now() supplies it. -/
structure GameDate where
  year : Nat
  month : Nat
  day : Nat

/-- datetime.now().strftime of the Y.m.d pattern used for the Date header. -/
def strftimeYMD (t : GameDate) : String :=
  String.mk (natDigits t.year ++ '.' :: (pad2 t.month ++ '.' :: pad2 t.day))

/-- save_game_data: build the PGN game from the finished board, set the four
metadata headers, then append str(pgn_game) followed by two newlines to the
dataset file (the file content string; append mode creates the file when old
content is empty). Returns the new file content and the game written. -/
def save_game_data (render : PGNGame → String) (boardResult : String)
    (boardMoves : List String) (today : GameDate) (oldFile : String) :
    String × PGNGame :=
  let g1 := gameFromBoard boardResult boardMoves
  let hs := setHeader (setHeader (setHeader (setHeader g1.headers
    "Event" "Cyberchess Dojo") "White" "Stockfish Level 5")
    "Black" "Gemini 1.5 Flash") "Date" (strftimeYMD today)
  let g2 : PGNGame := { headers := hs, movesText := g1.movesText }
  (oldFile ++ (render g2 ++ "\n\n"), g2)

/-! ## Concrete instances used to evaluate the embedding -/

/-- The move e2e4 (square indices 12 and 28). -/
def mvE2E4 : ChessMove := ⟨12, 28, none, none⟩

/-- A board with a single legal move, e2e4. -/
def board0 : ChessBoard := ⟨[mvE2E4], "4k3/8/8/8/8/8/8/4K3 w - - 0 1"⟩

/-- A proposal source that faults on round 0 and answers e2e4 afterwards. -/
def oracleFaultThenLegal : Nat → Option String :=
  fun n => if n = 0 then none else some "e2e4"

/-- A toy board-state provider: the position counts the plies played, the
game ends after one ply, and White is always to move. Used to evaluate the
play_game embedding on a run whose engine faults immediately. -/
def toyApiFault : BoardAPI Nat Nat :=
  { init := 0, legalMoves := fun b => [b], push := fun b _ => b + 1,
    isGameOver := fun b => decide (1 ≤ b), turnWhite := fun _ => true }

/-- A toy board-state provider for a two-ply game: the position counts the
plies, the game ends after two plies, White moves on even positions. -/
def toyApiGame : BoardAPI Nat Nat :=
  { init := 0, legalMoves := fun b => [b], push := fun b _ => b + 1,
    isGameOver := fun b => decide (2 ≤ b), turnWhite := fun b => decide (b % 2 = 0) }

/-! ## Lemmas about one round -/

theorem roundOutcome_legal_mem {board : ChessBoard} {r : Option String} {m : ChessMove}
    (h : roundOutcome board r = RoundOutcome.legal m) : m ∈ board.legalMoves := by
  cases r with
  | none => simp [roundOutcome] at h
  | some raw =>
    simp only [roundOutcome] at h
    cases hp : ChessMove.fromUci (sanitize raw) with
    | none => rw [hp] at h; exact absurd h (by simp)
    | some m2 =>
      rw [hp] at h
      dsimp at h
      by_cases hm : m2 ∈ board.legalMoves
      · rw [if_pos hm] at h
        injection h with h2
        subst h2; exact hm
      · rw [if_neg hm] at h
        exact absurd h (by simp)

/-! ## Lemmas about the retry loop -/

theorem negotiateLoop_found_mem (board : ChessBoard) (oracle : Nat → Option String) :
    ∀ (rem attempt : Nat) (prompt : String) (m : ChessMove),
      (negotiateLoop board oracle rem attempt prompt).found = some m →
      m ∈ board.legalMoves := by
  intro rem
  induction rem with
  | zero => intro attempt prompt m h; simp [negotiateLoop] at h
  | succ rem ih =>
    intro attempt prompt m h
    unfold negotiateLoop at h
    cases hro : roundOutcome board (oracle attempt) with
    | legal m2 =>
      rw [hro] at h
      dsimp at h
      injection h with h2
      subst h2
      exact roundOutcome_legal_mem hro
    | illegal tok =>
      rw [hro] at h
      dsimp at h
      exact ih _ _ _ h
    | formatErr =>
      rw [hro] at h
      dsimp at h
      exact ih _ _ _ h

theorem negotiateLoop_rounds_le (board : ChessBoard) (oracle : Nat → Option String) :
    ∀ (rem attempt : Nat) (prompt : String),
      (negotiateLoop board oracle rem attempt prompt).rounds ≤ rem := by
  intro rem
  induction rem with
  | zero => intro attempt prompt; simp [negotiateLoop]
  | succ rem ih =>
    intro attempt prompt
    unfold negotiateLoop
    cases roundOutcome board (oracle attempt) with
    | legal m => simp
    | illegal tok => dsimp; exact Nat.succ_le_succ (ih _ _)
    | formatErr => dsimp; exact Nat.succ_le_succ (ih _ _)

theorem negotiateLoop_none_rounds (board : ChessBoard) (oracle : Nat → Option String) :
    ∀ (rem attempt : Nat) (prompt : String),
      (negotiateLoop board oracle rem attempt prompt).found = none →
      (negotiateLoop board oracle rem attempt prompt).rounds = rem := by
  intro rem
  induction rem with
  | zero => intro attempt prompt _; simp [negotiateLoop]
  | succ rem ih =>
    intro attempt prompt h
    unfold negotiateLoop at h ⊢
    cases hro : roundOutcome board (oracle attempt) with
    | legal m => rw [hro] at h; dsimp at h; exact absurd h (by simp)
    | illegal tok =>
      rw [hro] at h
      dsimp at h ⊢
      rw [ih _ _ h]
    | formatErr =>
      rw [hro] at h
      dsimp at h ⊢
      rw [ih _ _ h]

theorem negotiateLoop_prompt_eq (board : ChessBoard) (oracle : Nat → Option String) :
    ∀ (rem attempt : Nat) (prompt : String),
      (negotiateLoop board oracle rem attempt prompt).prompt
        = prompt ++ concatTexts (negotiateLoop board oracle rem attempt prompt).newFeedback := by
  intro rem
  induction rem with
  | zero => intro attempt prompt; simp [negotiateLoop, concatTexts, String.append_empty]
  | succ rem ih =>
    intro attempt prompt
    unfold negotiateLoop
    cases roundOutcome board (oracle attempt) with
    | legal m => simp [concatTexts, String.append_empty]
    | illegal tok =>
      dsimp
      rw [ih, concatTexts, String.append_assoc]
    | formatErr =>
      dsimp
      rw [ih, concatTexts, String.append_assoc]

theorem negotiateLoop_feedback_get? (board : ChessBoard) (oracle : Nat → Option String) :
    ∀ (rem attempt : Nat) (prompt : String) (i : Nat),
      i < (negotiateLoop board oracle rem attempt prompt).newFeedback.length →
      (negotiateLoop board oracle rem attempt prompt).newFeedback.get? i
        = outcomeFeedback (roundOutcome board (oracle (attempt + i))) := by
  intro rem
  induction rem with
  | zero => intro attempt prompt i h; simp [negotiateLoop] at h
  | succ rem ih =>
    intro attempt prompt i h
    unfold negotiateLoop at h ⊢
    cases hro : roundOutcome board (oracle attempt) with
    | legal m => rw [hro] at h; simp at h
    | illegal tok =>
      rw [hro] at h
      dsimp at h ⊢
      cases i with
      | zero => simp [hro, outcomeFeedback]
      | succ i =>
        rw [List.get?_cons_succ]
        have hlt : i < (negotiateLoop board oracle rem (attempt + 1)
            (prompt ++ feedbackText (Feedback.illegalMove tok))).newFeedback.length := by omega
        rw [ih _ _ i hlt]
        rw [show attempt + 1 + i = attempt + (i + 1) from by omega]
    | formatErr =>
      rw [hro] at h
      dsimp at h ⊢
      cases i with
      | zero => simp [hro, outcomeFeedback]
      | succ i =>
        rw [List.get?_cons_succ]
        have hlt : i < (negotiateLoop board oracle rem (attempt + 1)
            (prompt ++ feedbackText Feedback.invalidFormat)).newFeedback.length := by omega
        rw [ih _ _ i hlt]
        rw [show attempt + 1 + i = attempt + (i + 1) from by omega]

theorem negotiateLoop_first_success (board : ChessBoard) (oracle : Nat → Option String) :
    ∀ (k rem attempt : Nat) (prompt : String) (m : ChessMove),
      k < rem →
      (∀ j, j < k → (roundOutcome board (oracle (attempt + j))).isLegal = false) →
      roundOutcome board (oracle (attempt + k)) = RoundOutcome.legal m →
      (negotiateLoop board oracle rem attempt prompt).found = some m
      ∧ (negotiateLoop board oracle rem attempt prompt).rounds = k + 1
      ∧ (negotiateLoop board oracle rem attempt prompt).newFeedback.length = k := by
  intro k
  induction k with
  | zero =>
    intro rem attempt prompt m hk _ hlegal
    rw [Nat.add_zero] at hlegal
    cases rem with
    | zero => omega
    | succ rem =>
      unfold negotiateLoop
      rw [hlegal]
      exact ⟨rfl, rfl, rfl⟩
  | succ k ih =>
    intro rem attempt prompt m hk hfail hlegal
    cases rem with
    | zero => omega
    | succ rem =>
      have h0 : (roundOutcome board (oracle attempt)).isLegal = false := by
        have := hfail 0 (by omega)
        rwa [Nat.add_zero] at this
      unfold negotiateLoop
      cases hro : roundOutcome board (oracle attempt) with
      | legal m2 => rw [hro] at h0; simp [RoundOutcome.isLegal] at h0
      | illegal tok =>
        dsimp
        have hrec := ih rem (attempt + 1) (prompt ++ feedbackText (Feedback.illegalMove tok)) m
          (by omega)
          (by
            intro j hj
            have := hfail (j + 1) (by omega)
            rwa [show attempt + (j + 1) = attempt + 1 + j from by omega] at this)
          (by rwa [show attempt + 1 + k = attempt + (k + 1) from by omega])
        exact ⟨hrec.1, by rw [hrec.2.1], by rw [hrec.2.2]⟩
      | formatErr =>
        dsimp
        have hrec := ih rem (attempt + 1) (prompt ++ feedbackText Feedback.invalidFormat) m
          (by omega)
          (by
            intro j hj
            have := hfail (j + 1) (by omega)
            rwa [show attempt + (j + 1) = attempt + 1 + j from by omega] at this)
          (by rwa [show attempt + 1 + k = attempt + (k + 1) from by omega])
        exact ⟨hrec.1, by rw [hrec.2.1], by rw [hrec.2.2]⟩

theorem roundOutcome_z9z9 (board : ChessBoard) :
    roundOutcome board (some "z9z9") = RoundOutcome.formatErr := by
  have hz : ChessMove.fromUci (sanitize "z9z9") = none := by decide
  simp [roundOutcome, hz]

theorem negotiateLoop_z9z9 (board : ChessBoard) :
    ∀ (rem attempt : Nat) (prompt : String),
      (negotiateLoop board (fun _ => some "z9z9") rem attempt prompt).found = none
      ∧ (negotiateLoop board (fun _ => some "z9z9") rem attempt prompt).newFeedback
          = List.replicate rem Feedback.invalidFormat := by
  intro rem
  induction rem with
  | zero => intro attempt prompt; exact ⟨rfl, rfl⟩
  | succ rem ih =>
    intro attempt prompt
    unfold negotiateLoop
    rw [roundOutcome_z9z9 board]
    dsimp
    refine ⟨(ih _ _).1, ?_⟩
    rw [List.replicate_succ, (ih _ _).2]

/-! ## Case lemmas for get_gemini_move -/

theorem get_gemini_move_some (board : ChessBoard) (oracle : Nat → Option String)
    (randIdx retries : Nat) (m : ChessMove)
    (hf : (negotiateLoop board oracle retries 0 (initialPrompt board)).found = some m) :
    get_gemini_move board oracle randIdx retries =
      { move := some m,
        rounds := (negotiateLoop board oracle retries 0 (initialPrompt board)).rounds,
        feedback := (negotiateLoop board oracle retries 0 (initialPrompt board)).newFeedback,
        prompt := (negotiateLoop board oracle retries 0 (initialPrompt board)).prompt,
        usedFallback := false } := by
  unfold get_gemini_move
  dsimp only
  rw [hf]

theorem get_gemini_move_none (board : ChessBoard) (oracle : Nat → Option String)
    (randIdx retries : Nat)
    (hf : (negotiateLoop board oracle retries 0 (initialPrompt board)).found = none) :
    get_gemini_move board oracle randIdx retries =
      { move := board.legalMoves.get? randIdx,
        rounds := (negotiateLoop board oracle retries 0 (initialPrompt board)).rounds,
        feedback := (negotiateLoop board oracle retries 0 (initialPrompt board)).newFeedback,
        prompt := (negotiateLoop board oracle retries 0 (initialPrompt board)).prompt,
        usedFallback := true } := by
  unfold get_gemini_move
  dsimp only
  rw [hf]

/-! ## String helper lemmas -/

theorem concatTexts_append (l1 l2 : List Feedback) :
    concatTexts (l1 ++ l2) = concatTexts l1 ++ concatTexts l2 := by
  induction l1 with
  | nil => simp [concatTexts]
  | cons f fs ih => simp [concatTexts, ih, String.append_assoc]

theorem concatTexts_take_mono (fb : List Feedback) (a b : Nat) (hab : a ≤ b) :
    (concatTexts (fb.take a)).length ≤ (concatTexts (fb.take b)).length := by
  have hb : b = a + (b - a) := by omega
  rw [hb, List.take_add, concatTexts_append, String.length_append]
  omega

/-! ## Claim theorems for the move negotiator -/

/-- Claim C1: for every board state with at least one legal move, every
behavior of the move proposal source (any text returned or a fault raised on
each round) and every index drawn by random.choice, get_gemini_move returns a
move that is a member of the legal-move set of the board passed in: the
validation path returns only moves checked against board.legal_moves, and the
fallback path draws only from board.legal_moves. -/
theorem gemini_move_always_legal (board : ChessBoard) (oracle : Nat → Option String)
    (randIdx retries : Nat) (_hne : board.legalMoves ≠ [])
    (hidx : randIdx < board.legalMoves.length) :
    ∃ m, (get_gemini_move board oracle randIdx retries).move = some m
      ∧ m ∈ board.legalMoves := by
  cases hf : (negotiateLoop board oracle retries 0 (initialPrompt board)).found with
  | some m =>
    refine ⟨m, ?_, negotiateLoop_found_mem board oracle _ _ _ _ hf⟩
    rw [get_gemini_move_some board oracle randIdx retries m hf]
  | none =>
    refine ⟨board.legalMoves.get ⟨randIdx, hidx⟩, ?_, List.get_mem _ _ _⟩
    rw [get_gemini_move_none board oracle randIdx retries hf]
    exact List.get?_eq_get hidx

/-- Witness for C1 at a concrete board and an always-faulting source. -/
theorem gemini_move_always_legal_witness :
    board0.legalMoves ≠ [] ∧ 0 < board0.legalMoves.length
    ∧ ∃ m, (get_gemini_move board0 (fun _ => none) 0 3).move = some m
        ∧ m ∈ board0.legalMoves :=
  ⟨by decide, by decide,
    gemini_move_always_legal board0 (fun _ => none) 0 3 (by decide) (by decide)⟩

/-- Claim C3 counterexample: with the source answering z9z9 on all three
rounds, every appended feedback message is the Invalid-format form —
chess.Move.from_uci rejects z9z9 because z9 is not a square name, so each
round is a parse failure — and no illegal-move-form message is appended,
contradicting the claimed count of three illegal-move messages. -/
theorem z9z9_feedback_is_format_form :
    (get_gemini_move board0 (fun _ => some "z9z9") 0 3).feedback.length = 3
    ∧ ((get_gemini_move board0 (fun _ => some "z9z9") 0 3).feedback.filter
        (fun f => match f with | Feedback.illegalMove _ => true | _ => false)).length = 0
    ∧ (get_gemini_move board0 (fun _ => some "z9z9") 0 3).feedback
        = List.replicate 3 Feedback.invalidFormat := by
  decide

/-- Claim C3 as amended: if the source returns z9z9 on every round, then
get_gemini_move falls back to the uniformly drawn member of the legal-move
list and has appended exactly max_attempts format-correction (Invalid format)
feedback messages — not illegal-move messages, because from_uci rejects z9z9
as unparseable. -/
theorem z9z9_uniform_fallback_format_feedback (board : ChessBoard)
    (retries randIdx : Nat) (hidx : randIdx < board.legalMoves.length) :
    (get_gemini_move board (fun _ => some "z9z9") randIdx retries).move
      = some (board.legalMoves.get ⟨randIdx, hidx⟩)
    ∧ (get_gemini_move board (fun _ => some "z9z9") randIdx retries).feedback
      = List.replicate retries Feedback.invalidFormat
    ∧ (get_gemini_move board (fun _ => some "z9z9") randIdx retries).usedFallback = true := by
  have hz := negotiateLoop_z9z9 board retries 0 (initialPrompt board)
  rw [get_gemini_move_none board _ randIdx retries hz.1]
  exact ⟨List.get?_eq_get hidx, hz.2, rfl⟩

/-- Witness for the amended C3 at a concrete board. -/
theorem z9z9_uniform_fallback_format_feedback_witness :
    (get_gemini_move board0 (fun _ => some "z9z9") 0 2).move
      = some (board0.legalMoves.get ⟨0, by decide⟩)
    ∧ (get_gemini_move board0 (fun _ => some "z9z9") 0 2).feedback
      = List.replicate 2 Feedback.invalidFormat
    ∧ (get_gemini_move board0 (fun _ => some "z9z9") 0 2).usedFallback = true :=
  z9z9_uniform_fallback_format_feedback board0 2 0 (by decide)

/-- Claim C4: for every board with at least one legal move and retries at
least one, get_gemini_move performs at most retries proposal rounds and
terminates regardless of the source behavior; when no round yields a legal
move it returns the member of the legal-move list selected by the random
draw (uniform over the whole legal-move set of the original board). -/
theorem gemini_move_bounded_rounds_fallback (board : ChessBoard)
    (oracle : Nat → Option String) (randIdx retries : Nat)
    (_hr : 1 ≤ retries) (hidx : randIdx < board.legalMoves.length) :
    (get_gemini_move board oracle randIdx retries).rounds ≤ retries
    ∧ ((get_gemini_move board oracle randIdx retries).usedFallback = true →
        (get_gemini_move board oracle randIdx retries).move
          = some (board.legalMoves.get ⟨randIdx, hidx⟩)) := by
  cases hf : (negotiateLoop board oracle retries 0 (initialPrompt board)).found with
  | some m =>
    rw [get_gemini_move_some board oracle randIdx retries m hf]
    exact ⟨negotiateLoop_rounds_le board oracle retries 0 (initialPrompt board),
      by intro h; cases h⟩
  | none =>
    rw [get_gemini_move_none board oracle randIdx retries hf]
    exact ⟨negotiateLoop_rounds_le board oracle retries 0 (initialPrompt board),
      fun _ => List.get?_eq_get hidx⟩

/-- Witness for C4 at a concrete board and an always-faulting source. -/
theorem gemini_move_bounded_rounds_fallback_witness :
    (get_gemini_move board0 (fun _ => none) 0 3).rounds ≤ 3
    ∧ ((get_gemini_move board0 (fun _ => none) 0 3).usedFallback = true →
        (get_gemini_move board0 (fun _ => none) 0 3).move
          = some (board0.legalMoves.get ⟨0, by decide⟩)) :=
  gemini_move_bounded_rounds_fallback board0 (fun _ => none) 0 3 (by decide) (by decide)

/-- Claim C5: if the rounds before round k all fail and round k (with
k < retries) produces a sanitized text that parses to a member of the
legal-move set of the original board, then get_gemini_move returns that move
at round k: exactly k+1 source queries occur, only the k failed rounds
contributed feedback, and the fallback is not taken. -/
theorem first_legal_round_returns_immediately (board : ChessBoard)
    (oracle : Nat → Option String) (randIdx retries k : Nat) (m : ChessMove)
    (hk : k < retries)
    (hfail : ∀ j, j < k → (roundOutcome board (oracle j)).isLegal = false)
    (hlegal : roundOutcome board (oracle k) = RoundOutcome.legal m) :
    (get_gemini_move board oracle randIdx retries).move = some m
    ∧ (get_gemini_move board oracle randIdx retries).rounds = k + 1
    ∧ (get_gemini_move board oracle randIdx retries).feedback.length = k
    ∧ (get_gemini_move board oracle randIdx retries).usedFallback = false := by
  have h := negotiateLoop_first_success board oracle k retries 0 (initialPrompt board) m hk
    (by intro j hj; rw [Nat.zero_add]; exact hfail j hj)
    (by rwa [Nat.zero_add])
  rw [get_gemini_move_some board oracle randIdx retries m h.1]
  exact ⟨rfl, h.2.1, h.2.2, rfl⟩

/-- Witness for C5: the source faults on round 0 and answers e2e4 on
round 1, which is legal on the concrete board. -/
theorem first_legal_round_returns_immediately_witness :
    1 < 3
    ∧ (∀ j, j < 1 → (roundOutcome board0 (oracleFaultThenLegal j)).isLegal = false)
    ∧ roundOutcome board0 (oracleFaultThenLegal 1) = RoundOutcome.legal mvE2E4
    ∧ (get_gemini_move board0 oracleFaultThenLegal 0 3).move = some mvE2E4
    ∧ (get_gemini_move board0 oracleFaultThenLegal 0 3).rounds = 2
    ∧ (get_gemini_move board0 oracleFaultThenLegal 0 3).feedback.length = 1
    ∧ (get_gemini_move board0 oracleFaultThenLegal 0 3).usedFallback = false := by
  refine ⟨by decide, by decide, by decide, ?_⟩
  have h := first_legal_round_returns_immediately board0 oracleFaultThenLegal 0 3 1 mvE2E4
    (by decide) (by decide) (by decide)
  exact ⟨h.1, h.2.1, h.2.2.1, h.2.2.2⟩

/-- Claim C6: within one get_gemini_move call the prompt is only appended
to — the final prompt is the initial prompt followed by the accumulated
feedback lines in order, so its length is non-decreasing across rounds and
feedback is never reset — and the feedback line of each failed round j is
exactly the one its round outcome dictates: the illegal-move message naming
the rejected sanitized token when the text parsed but was not legal, the
format-correction message when parsing failed or the source raised. -/
theorem prompt_append_only_feedback_modes (board : ChessBoard)
    (oracle : Nat → Option String) (randIdx retries : Nat) :
    (get_gemini_move board oracle randIdx retries).prompt
      = initialPrompt board ++ concatTexts (get_gemini_move board oracle randIdx retries).feedback
    ∧ (∀ i, i < (get_gemini_move board oracle randIdx retries).feedback.length →
        (get_gemini_move board oracle randIdx retries).feedback.get? i
          = outcomeFeedback (roundOutcome board (oracle i)))
    ∧ (∀ a b, a ≤ b →
        (initialPrompt board
          ++ concatTexts ((get_gemini_move board oracle randIdx retries).feedback.take a)).length
        ≤ (initialPrompt board
          ++ concatTexts ((get_gemini_move board oracle randIdx retries).feedback.take b)).length) := by
  have hfields : (get_gemini_move board oracle randIdx retries).prompt
        = (negotiateLoop board oracle retries 0 (initialPrompt board)).prompt
      ∧ (get_gemini_move board oracle randIdx retries).feedback
        = (negotiateLoop board oracle retries 0 (initialPrompt board)).newFeedback := by
    cases hf : (negotiateLoop board oracle retries 0 (initialPrompt board)).found with
    | some m => rw [get_gemini_move_some board oracle randIdx retries m hf]; exact ⟨rfl, rfl⟩
    | none => rw [get_gemini_move_none board oracle randIdx retries hf]; exact ⟨rfl, rfl⟩
  refine ⟨?_, ?_, ?_⟩
  · rw [hfields.1, hfields.2]
    exact negotiateLoop_prompt_eq board oracle retries 0 (initialPrompt board)
  · intro i hi
    rw [hfields.2] at hi ⊢
    have h := negotiateLoop_feedback_get? board oracle retries 0 (initialPrompt board) i hi
    rwa [Nat.zero_add] at h
  · intro a b hab
    rw [String.length_append, String.length_append]
    have := concatTexts_take_mono (get_gemini_move board oracle randIdx retries).feedback a b hab
    omega

/-- Claim C7: the sanitized candidate equals the raw text with surrounding
whitespace stripped and every newline, space and backtick character removed,
and nothing else is altered (in particular letter case is preserved): the
chained replace calls of the code coincide with that specification. -/
theorem sanitize_matches_spec (s : String) : sanitize s = sanitizeSpec s := by
  unfold sanitize sanitizeSpec removeChar
  rw [List.filter_filter, List.filter_filter]
  congr 1
  have hfun : (fun a => decide (a ≠ backtickChar) && decide (a ≠ ' ') && decide (a ≠ '\n'))
      = fun c => !(decide (c = '\n') || decide (c = ' ') || decide (c = backtickChar)) := by
    funext c
    by_cases h1 : c = '\n' <;> by_cases h2 : c = ' ' <;> by_cases h3 : c = backtickChar <;>
      simp [h1, h2, h3]
  rw [hfun]

/-- Claim C10: with retries = 0 — below the documented minimum — the loop
body never runs: the source is never queried (zero rounds, result identical
for any two sources), no feedback is produced, and the fallback returns the
randomly drawn member of the legal-move list. -/
theorem zero_retries_random_fallback (board : ChessBoard)
    (oracle oracle2 : Nat → Option String) (randIdx : Nat)
    (hidx : randIdx < board.legalMoves.length) :
    (get_gemini_move board oracle randIdx 0).move
      = some (board.legalMoves.get ⟨randIdx, hidx⟩)
    ∧ (get_gemini_move board oracle randIdx 0).rounds = 0
    ∧ (get_gemini_move board oracle randIdx 0).usedFallback = true
    ∧ (get_gemini_move board oracle randIdx 0).feedback = []
    ∧ get_gemini_move board oracle randIdx 0 = get_gemini_move board oracle2 randIdx 0 := by
  refine ⟨?_, rfl, rfl, rfl, rfl⟩
  exact List.get?_eq_get hidx

/-- Witness for C10 at a concrete board, with two different sources. -/
theorem zero_retries_random_fallback_witness :
    (get_gemini_move board0 (fun _ => some "e2e4") 0 0).move
      = some (board0.legalMoves.get ⟨0, by decide⟩)
    ∧ (get_gemini_move board0 (fun _ => some "e2e4") 0 0).rounds = 0
    ∧ (get_gemini_move board0 (fun _ => some "e2e4") 0 0).usedFallback = true
    ∧ (get_gemini_move board0 (fun _ => some "e2e4") 0 0).feedback = []
    ∧ get_gemini_move board0 (fun _ => some "e2e4") 0 0
      = get_gemini_move board0 (fun _ => none) 0 0 :=
  zero_retries_random_fallback board0 (fun _ => some "e2e4") (fun _ => none) 0 (by decide)

/-! ## Lemmas and claim theorems for the game loop -/

theorem legalPathB_snoc {B M : Type} (api : BoardAPI B M) [DecidableEq M] :
    ∀ (ms : List M) (c : B) (m : M),
      legalPathB api c ms = true →
      m ∈ api.legalMoves (List.foldl api.push c ms) →
      legalPathB api c (ms ++ [m]) = true := by
  intro ms
  induction ms with
  | nil =>
    intro c m _ hm
    simp only [List.foldl_nil] at hm
    simp [legalPathB, hm]
  | cons m0 ms ih =>
    intro c m hpath hm
    simp only [legalPathB, Bool.and_eq_true] at hpath
    simp only [List.cons_append, legalPathB, Bool.and_eq_true]
    exact ⟨hpath.1, ih (api.push c m0) m hpath.2 (by simpa using hm)⟩

/-- Claim C8: under the contract that the engine returns only legal moves and
the negotiator returns only legal moves (established for get_gemini_move by
the legality theorem), the game loop maintains the invariant that its state
is exactly the fold of the recorded game_moves from the starting position
along a path of legal moves; whenever the loop returns, the final board is
reachable from the start by exactly game_moves, the move log has only grown,
and the loop has exited only on a terminal board. The second conjunct states
the per-iteration transition: on a non-terminal board exactly one move is
obtained — from the engine on the White turn, from the Gemini source on the
Black turn — pushed to the board and appended to game_moves. -/
theorem play_game_loop_invariant {B M : Type} [DecidableEq M] (api : BoardAPI B M)
    (engine : B → Option M) (gem : B → M)
    (hEng : ∀ b m, api.isGameOver b = false → api.turnWhite b = true →
      engine b = some m → m ∈ api.legalMoves b)
    (hGem : ∀ b, api.isGameOver b = false → api.turnWhite b = false →
      gem b ∈ api.legalMoves b) :
    (∀ (fuel : Nat) (ms0 : List M) (b : B) (ms : List M),
      legalPathB api api.init ms0 = true →
      playLoop api engine gem fuel (List.foldl api.push api.init ms0) ms0
        = GameRes.finished b ms →
      b = List.foldl api.push api.init ms
      ∧ legalPathB api api.init ms = true
      ∧ api.isGameOver b = true
      ∧ ∃ tail, ms = ms0 ++ tail)
    ∧ (∀ (n : Nat) (b : B) (ms : List M), api.isGameOver b = false →
        ((api.turnWhite b = true → ∀ m, engine b = some m →
            playLoop api engine gem (n + 1) b ms
              = playLoop api engine gem n (api.push b m) (ms ++ [m]))
         ∧ (api.turnWhite b = false →
            playLoop api engine gem (n + 1) b ms
              = playLoop api engine gem n (api.push b (gem b)) (ms ++ [gem b])))) := by
  constructor
  · intro fuel
    induction fuel with
    | zero => intro ms0 b ms _ hrun; exact absurd hrun (by simp [playLoop])
    | succ fuel ih =>
      intro ms0 b ms hpath hrun
      unfold playLoop at hrun
      by_cases hover : api.isGameOver (List.foldl api.push api.init ms0) = true
      · rw [if_pos hover] at hrun
        injection hrun with h1 h2
        subst h1; subst h2
        exact ⟨rfl, hpath, hover, [], by simp⟩
      · rw [if_neg hover] at hrun
        rw [Bool.not_eq_true] at hover
        by_cases hwhite : api.turnWhite (List.foldl api.push api.init ms0) = true
        · rw [if_pos hwhite] at hrun
          cases heng : engine (List.foldl api.push api.init ms0) with
          | none => rw [heng] at hrun; exact absurd hrun (by simp)
          | some m =>
            rw [heng] at hrun
            dsimp at hrun
            have hm : m ∈ api.legalMoves (List.foldl api.push api.init ms0) :=
              hEng _ m hover hwhite heng
            have hpath2 : legalPathB api api.init (ms0 ++ [m]) = true :=
              legalPathB_snoc api ms0 api.init m hpath hm
            have hfold : api.push (List.foldl api.push api.init ms0) m
                = List.foldl api.push api.init (ms0 ++ [m]) := by
              simp [List.foldl_append]
            rw [hfold] at hrun
            have hrec := ih (ms0 ++ [m]) b ms hpath2 hrun
            obtain ⟨hb, hp, ho, tail, htail⟩ := hrec
            exact ⟨hb, hp, ho, m :: tail, by simp [htail]⟩
        · rw [if_neg hwhite] at hrun
          have hw : api.turnWhite (List.foldl api.push api.init ms0) = false := by
            rwa [Bool.not_eq_true] at hwhite
          have hm : gem (List.foldl api.push api.init ms0)
              ∈ api.legalMoves (List.foldl api.push api.init ms0) := hGem _ hover hw
          have hpath2 := legalPathB_snoc api ms0 api.init _ hpath hm
          have hfold : api.push (List.foldl api.push api.init ms0)
                (gem (List.foldl api.push api.init ms0))
              = List.foldl api.push api.init
                  (ms0 ++ [gem (List.foldl api.push api.init ms0)]) := by
            simp [List.foldl_append]
          rw [hfold] at hrun
          have hrec := ih _ b ms hpath2 hrun
          obtain ⟨hb, hp, ho, tail, htail⟩ := hrec
          exact ⟨hb, hp, ho, gem (List.foldl api.push api.init ms0) :: tail, by simp [htail]⟩
  · intro n b ms hover
    constructor
    · intro hwhite m heng
      conv_lhs => simp only [playLoop]
      rw [if_neg (by simp [hover]), if_pos hwhite, heng]
    · intro hwhite
      conv_lhs => simp only [playLoop]
      rw [if_neg (by simp [hover]), if_neg (by simp [hwhite])]

/-- Witness for C8: a two-ply toy game ending on a terminal board, with the
invariant instantiated at the empty starting log. -/
theorem play_game_loop_invariant_witness :
    2 = List.foldl toyApiGame.push toyApiGame.init [0, 1]
    ∧ legalPathB toyApiGame toyApiGame.init [0, 1] = true
    ∧ toyApiGame.isGameOver 2 = true
    ∧ ∃ tail, [0, 1] = [] ++ tail := by
  have h := (play_game_loop_invariant toyApiGame (fun b => some b) (fun b => b)
    (by intro b m _ _ hm; injection hm with hm2; subst hm2; simp [toyApiGame])
    (by intro b _ _; simp [toyApiGame])).1 5 [] 2 [0, 1] (by decide) (by decide)
  exact h

/-- Claim C2 (code behavior at the failing input): when the engine raises on
the very first move request, play_game propagates the engine fault without
reaching the engine.quit() line — the source has no try/finally around the
game loop, so the engine resource is not released on the fault path,
contradicting the claim that it is released on every exit path. -/
theorem engine_fault_skips_quit :
    (play_game toyApiFault (fun _ => none) (fun b => b) 5).result = GameRes.engineFault
    ∧ (play_game toyApiFault (fun _ => none) (fun b => b) 5).engineQuitCalled = false := by
  decide

/-! ## Lemmas and claim theorem for the archiver -/

theorem digitChar_isDigit : ∀ n, n < 10 → (digitChar n).isDigit = true := by decide

theorem natDigits_lt10 (n : Nat) (h : n < 10) : natDigits n = [digitChar n] := by
  unfold natDigits
  rw [dif_pos h]

theorem natDigits_ge10 (n : Nat) (h : ¬n < 10) :
    natDigits n = natDigits (n / 10) ++ [digitChar (n % 10)] := by
  conv_lhs => unfold natDigits
  rw [dif_neg h]

theorem natDigits_isDigit (n : Nat) : ∀ c ∈ natDigits n, c.isDigit = true := by
  induction n using Nat.strong_induction_on with
  | _ n ih =>
    intro c hc
    by_cases h : n < 10
    · rw [natDigits_lt10 n h] at hc
      simp at hc
      subst hc
      exact digitChar_isDigit n h
    · rw [natDigits_ge10 n h] at hc
      rw [List.mem_append] at hc
      cases hc with
      | inl hc => exact ih (n / 10) (Nat.div_lt_self (by omega) (by omega)) c hc
      | inr hc =>
        simp at hc
        subst hc
        exact digitChar_isDigit _ (Nat.mod_lt n (by omega))

theorem natDigits_len2 (n : Nat) (h1 : 10 ≤ n) (h2 : n < 100) :
    (natDigits n).length = 2 := by
  rw [natDigits_ge10 n (by omega), natDigits_lt10 (n / 10) (by omega)]
  rfl

theorem natDigits_len4 (n : Nat) (h1 : 1000 ≤ n) (h2 : n < 10000) :
    (natDigits n).length = 4 := by
  rw [natDigits_ge10 n (by omega), natDigits_ge10 (n / 10) (by omega)]
  have h3 := natDigits_len2 (n / 10 / 10) (by omega) (by omega)
  simp only [List.length_append, List.length_cons, List.length_nil, h3]

theorem pad2_len (n : Nat) (h : n < 100) : (pad2 n).length = 2 := by
  unfold pad2
  by_cases h10 : n < 10
  · rw [if_pos h10]
    rfl
  · rw [if_neg h10]
    exact natDigits_len2 n (by omega) h

theorem pad2_isDigit (n : Nat) (_h : n < 100) : ∀ c ∈ pad2 n, c.isDigit = true := by
  unfold pad2
  by_cases h10 : n < 10
  · rw [if_pos h10]
    intro c hc
    simp at hc
    cases hc with
    | inl hc => subst hc; decide
    | inr hc => subst hc; exact digitChar_isDigit n h10
  · rw [if_neg h10]
    exact natDigits_isDigit n

/-- Claim C9: save_game_data serializes the finished game fully and then
appends to the dataset file exactly one record followed by a blank-line
separator, leaving every byte of the previously archived content unchanged
(the new file content is the old content with a single suffix appended); the
header mapping of the written record carries Event, White, Black and Date,
with the Date value formatted as four digits, a dot, two digits, a dot and
two digits (YYYY.MM.DD). -/
theorem save_game_appends_record_headers (render : PGNGame → String)
    (boardResult : String) (boardMoves : List String) (today : GameDate)
    (oldFile : String)
    (hy1 : 1000 ≤ today.year) (hy2 : today.year < 10000)
    (hm1 : 1 ≤ today.month) (hm2 : today.month ≤ 12)
    (hd1 : 1 ≤ today.day) (hd2 : today.day ≤ 31) :
    (save_game_data render boardResult boardMoves today oldFile).1
      = oldFile
        ++ (render (save_game_data render boardResult boardMoves today oldFile).2 ++ "\n\n")
    ∧ List.lookup "Event" (save_game_data render boardResult boardMoves today oldFile).2.headers
      = some "Cyberchess Dojo"
    ∧ List.lookup "White" (save_game_data render boardResult boardMoves today oldFile).2.headers
      = some "Stockfish Level 5"
    ∧ List.lookup "Black" (save_game_data render boardResult boardMoves today oldFile).2.headers
      = some "Gemini 1.5 Flash"
    ∧ ∃ ys mos ds : List Char,
        List.lookup "Date" (save_game_data render boardResult boardMoves today oldFile).2.headers
          = some (String.mk (ys ++ '.' :: (mos ++ '.' :: ds)))
        ∧ ys.length = 4 ∧ mos.length = 2 ∧ ds.length = 2
        ∧ (∀ c ∈ ys, c.isDigit = true) ∧ (∀ c ∈ mos, c.isDigit = true)
        ∧ (∀ c ∈ ds, c.isDigit = true) := by
  refine ⟨rfl, ?_, ?_, ?_, ?_⟩
  · rfl
  · rfl
  · rfl
  · refine ⟨natDigits today.year, pad2 today.month, pad2 today.day, rfl,
      natDigits_len4 today.year hy1 hy2, pad2_len today.month (by omega),
      pad2_len today.day (by omega), natDigits_isDigit today.year,
      pad2_isDigit today.month (by omega), pad2_isDigit today.day (by omega)⟩

/-- Witness for C9 at a concrete render function, date and empty old file. -/
theorem save_game_appends_record_headers_witness :
    (save_game_data (fun _ => "GAME") "0-1" [] ⟨2026, 10, 12⟩ "").1
      = ""
        ++ ((fun (_ : PGNGame) => "GAME")
              (save_game_data (fun _ => "GAME") "0-1" [] ⟨2026, 10, 12⟩ "").2 ++ "\n\n")
    ∧ List.lookup "Event" (save_game_data (fun _ => "GAME") "0-1" [] ⟨2026, 10, 12⟩ "").2.headers
      = some "Cyberchess Dojo"
    ∧ List.lookup "White" (save_game_data (fun _ => "GAME") "0-1" [] ⟨2026, 10, 12⟩ "").2.headers
      = some "Stockfish Level 5"
    ∧ List.lookup "Black" (save_game_data (fun _ => "GAME") "0-1" [] ⟨2026, 10, 12⟩ "").2.headers
      = some "Gemini 1.5 Flash"
    ∧ ∃ ys mos ds : List Char,
        List.lookup "Date"
            (save_game_data (fun _ => "GAME") "0-1" [] ⟨2026, 10, 12⟩ "").2.headers
          = some (String.mk (ys ++ '.' :: (mos ++ '.' :: ds)))
        ∧ ys.length = 4 ∧ mos.length = 2 ∧ ds.length = 2
        ∧ (∀ c ∈ ys, c.isDigit = true) ∧ (∀ c ∈ mos, c.isDigit = true)
        ∧ (∀ c ∈ ds, c.isDigit = true) :=
  save_game_appends_record_headers (fun _ => "GAME") "0-1" [] ⟨2026, 10, 12⟩ ""
    (by decide) (by decide) (by decide) (by decide) (by decide) (by decide)

end Cyberchess
